import Mathlib

/-!
# Verification of the music search / style-recommendation backend

Shallow embedding of the retrieval/ranking core of the repository:

* `TextNormalizer.normalize`   (backend/app/models/deezer_search/normalizer.py)
* `TrackRanker.rank`           (backend/app/models/deezer_search/ranker.py)
* `DeezerSongSearchModel.predict` (deezer_search/search_model.py) with its
  `ResultCache` (backend/app/models/deezer_search/cache.py)
* `StyleRecommendationService` (backend/app/services/style_recommendation_service.py)
* `HuggingFaceAudioEmbedder.embed` (backend/app/services/huggingface_audio_service.py)
* `EmbeddingService.load_audio` (backend/app/services/embedding_service.py)

Python strings are modelled as lists of Unicode code points (`Str`), floats as
rationals, dictionaries with optional keys as structures of `Option` fields,
and Python exceptions as `Except` values.
-/

namespace MusicRec

/-- Python strings, modelled as lists of Unicode code points. -/
abbrev Str := List Nat

/-! ## Unicode data fragment

`unicodedata.normalize("NFKD", ·)`, `unicodedata.combining`, `str.casefold`
and `str.strip` consult the Unicode character database.  We model a finite,
faithful fragment of those tables (entries mirror `UnicodeData.txt` and
`CaseFolding.txt`); code points outside the fragment behave as in Unicode for
unlisted characters: they decompose to themselves, are not combining, fold to
themselves and are not whitespace. -/

/-- Combining marks of the fragment (COMBINING GRAVE ACCENT U+0300,
COMBINING ACUTE ACCENT U+0301, COMBINING DOT ABOVE U+0307),
as tested by `unicodedata.combining(ch)`. -/
def combiningChar (c : Nat) : Bool :=
  decide (c = 0x300 ∨ c = 0x301 ∨ c = 0x307)

/-- NFKD decomposition of a single code point
(À U+00C0, É U+00C9, é U+00E9, İ U+0130 and the ﬁ ligature U+FB01 decompose;
everything else is irreducible in the fragment). -/
def nfkdChar (c : Nat) : List Nat :=
  if c = 0xC0 then [0x41, 0x300]
  else if c = 0xC9 then [0x45, 0x301]
  else if c = 0xE9 then [0x65, 0x301]
  else if c = 0x130 then [0x49, 0x307]
  else if c = 0xFB01 then [0x66, 0x69]
  else [c]

/-- Full case folding of a single code point (`str.casefold`):
ASCII uppercase folds to lowercase, ß U+00DF folds to "ss". -/
def foldChar (c : Nat) : List Nat :=
  if 0x41 ≤ c ∧ c ≤ 0x5A then [c + 0x20]
  else if c = 0xDF then [0x73, 0x73]
  else [c]

/-- Whitespace as recognised by `str.strip`. -/
def isSpaceChar (c : Nat) : Bool :=
  decide (c = 0x20 ∨ c = 0x9 ∨ c = 0xA ∨ c = 0xD)

/-- Concatenation of a per-character expansion over a string
(`"".join(f(ch) for ch in s)`). -/
def charJoin (f : Nat → List Nat) : List Nat → List Nat
  | [] => []
  | c :: cs => f c ++ charJoin f cs

/-- `str.strip()`: drop whitespace from both ends. -/
def stripEnds (s : Str) : Str :=
  ((s.dropWhile isSpaceChar).reverse.dropWhile isSpaceChar).reverse

/-- `TextNormalizer.normalize` (normalizer.py, also duplicated as
`DeezerService.normalize_text` in deezer_service.py):
NFKD-decompose, remove combining marks, strip surrounding whitespace,
case-fold. -/
def TextNormalizer.normalize (s : Str) : Str :=
  charJoin foldChar
    (stripEnds ((charJoin nfkdChar s).filter (fun c => !combiningChar c)))

/-! ### Closure properties of the character tables -/

theorem charJoin_eq_self {f : Nat → List Nat} :
    ∀ {l : List Nat}, (∀ c ∈ l, f c = [c]) → charJoin f l = l := by
  intro l
  induction l with
  | nil => intro _; rfl
  | cons c cs ih =>
    intro h
    have hc := h c (by simp)
    simp [charJoin, hc, ih (fun d hd => h d (by simp [hd]))]

theorem mem_charJoin {f : Nat → List Nat} {d : Nat} :
    ∀ {l : List Nat}, d ∈ charJoin f l ↔ ∃ c ∈ l, d ∈ f c := by
  intro l
  induction l with
  | nil => simp [charJoin]
  | cons c cs ih => simp [charJoin, ih]

theorem reverse_charJoin {f : Nat → List Nat} :
    ∀ {l : List Nat},
      (charJoin f l).reverse = charJoin (fun c => (f c).reverse) l.reverse := by
  intro l
  induction l with
  | nil => rfl
  | cons c cs ih =>
    simp only [charJoin, List.reverse_append, List.reverse_cons, ih]
    induction cs.reverse with
    | nil => simp [charJoin]
    | cons b bs ih2 => simp [charJoin, ih2, List.append_assoc]

theorem nfkdChar_default {c : Nat} (h0 : c ≠ 0xC0) (h1 : c ≠ 0xC9)
    (h2 : c ≠ 0xE9) (h3 : c ≠ 0x130) (h4 : c ≠ 0xFB01) :
    nfkdChar c = [c] := by
  simp [nfkdChar, h0, h1, h2, h3, h4]

/-- Characters produced by a decomposition are irreducible. -/
theorem nfkdChar_closure {c d : Nat} (hd : d ∈ nfkdChar c) :
    nfkdChar d = [d] := by
  by_cases h0 : c = 0xC0
  · subst h0; simp [nfkdChar] at hd
    rcases hd with h | h <;> subst h <;> decide
  by_cases h1 : c = 0xC9
  · subst h1; simp [nfkdChar] at hd
    rcases hd with h | h <;> subst h <;> decide
  by_cases h2 : c = 0xE9
  · subst h2; simp [nfkdChar] at hd
    rcases hd with h | h <;> subst h <;> decide
  by_cases h3 : c = 0x130
  · subst h3; simp [nfkdChar] at hd
    rcases hd with h | h <;> subst h <;> decide
  by_cases h4 : c = 0xFB01
  · subst h4; simp [nfkdChar] at hd
    rcases hd with h | h <;> subst h <;> decide
  · rw [nfkdChar_default h0 h1 h2 h3 h4] at hd
    simp at hd
    subst hd
    exact nfkdChar_default h0 h1 h2 h3 h4

theorem foldChar_ne_nil (c : Nat) : foldChar c ≠ [] := by
  unfold foldChar
  split
  · simp
  · split <;> simp

theorem foldChar_default {c : Nat} (hU : ¬(0x41 ≤ c ∧ c ≤ 0x5A))
    (hS : c ≠ 0xDF) : foldChar c = [c] := by
  simp [foldChar, hU, hS]

/-- Case folding of an irreducible, non-combining character yields stable
characters: irreducible, non-combining, already folded, and with the same
whitespace status. -/
theorem foldChar_closure {c d : Nat} (hn : nfkdChar c = [c])
    (hcmb : combiningChar c = false) (hd : d ∈ foldChar c) :
    nfkdChar d = [d] ∧ combiningChar d = false ∧ foldChar d = [d] ∧
      isSpaceChar d = isSpaceChar c := by
  by_cases hU : 0x41 ≤ c ∧ c ≤ 0x5A
  · rw [foldChar, if_pos hU] at hd
    simp at hd
    subst hd
    refine ⟨?_, ?_, ?_, ?_⟩
    · exact nfkdChar_default (by omega) (by omega) (by omega) (by omega) (by omega)
    · simp only [combiningChar, decide_eq_false_iff_not]; omega
    · exact foldChar_default (by omega) (by omega)
    · have ha : isSpaceChar (c + 0x20) = false := by
        simp only [isSpaceChar, decide_eq_false_iff_not]; omega
      have hb : isSpaceChar c = false := by
        simp only [isSpaceChar, decide_eq_false_iff_not]; omega
      rw [ha, hb]
  by_cases hS : c = 0xDF
  · subst hS
    simp [foldChar] at hd
    subst hd
    exact ⟨by decide, by decide, by decide, by decide⟩
  · rw [foldChar_default hU hS] at hd
    simp at hd
    subst hd
    exact ⟨hn, hcmb, foldChar_default hU hS, rfl⟩

/-! ### Strip-related lemmas -/

theorem head?_dropWhile {p : Nat → Bool} :
    ∀ {l : List Nat} {h : Nat}, (l.dropWhile p).head? = some h → p h = false := by
  intro l
  induction l with
  | nil => intro h hh; simp [List.dropWhile] at hh
  | cons a l ih =>
    intro h hh
    rw [List.dropWhile_cons] at hh
    by_cases ha : p a
    · rw [if_pos ha] at hh; exact ih hh
    · rw [if_neg ha] at hh
      simp at hh
      subst hh
      simpa using ha

theorem getLast?_dropWhile_of_ne_nil {p : Nat → Bool} :
    ∀ {l : List Nat}, l.dropWhile p ≠ [] →
      (l.dropWhile p).getLast? = l.getLast? := by
  intro l
  induction l with
  | nil => intro h; simp [List.dropWhile] at h
  | cons a l ih =>
    intro h
    rw [List.dropWhile_cons] at h ⊢
    by_cases ha : p a
    · rw [if_pos ha] at h ⊢
      have hl : l ≠ [] := by
        intro he; subst he; simp [List.dropWhile] at h
      rw [ih h, List.getLast?_cons]
      cases hl2 : l.getLast? with
      | none => exact absurd (List.getLast?_eq_none_iff.mp hl2) hl
      | some b => rfl
    · rw [if_neg ha]

theorem head?_stripEnds {l : Str} {h : Nat} (hh : (stripEnds l).head? = some h) :
    isSpaceChar h = false := by
  unfold stripEnds at hh
  rw [List.head?_reverse] at hh
  by_cases hz : ((l.dropWhile isSpaceChar).reverse.dropWhile isSpaceChar) = []
  · rw [hz] at hh; simp at hh
  · rw [getLast?_dropWhile_of_ne_nil hz, List.getLast?_reverse] at hh
    exact head?_dropWhile hh

theorem getLast?_stripEnds {l : Str} {h : Nat}
    (hh : (stripEnds l).getLast? = some h) : isSpaceChar h = false := by
  unfold stripEnds at hh
  rw [List.getLast?_reverse] at hh
  exact head?_dropWhile hh

theorem mem_stripEnds {l : Str} {c : Nat} (hc : c ∈ stripEnds l) : c ∈ l := by
  unfold stripEnds at hc
  rw [List.mem_reverse] at hc
  have h1 := (List.dropWhile_sublist (l := (l.dropWhile isSpaceChar).reverse)
    isSpaceChar).mem hc
  rw [List.mem_reverse] at h1
  exact (List.dropWhile_sublist isSpaceChar).mem h1

theorem dropWhile_eq_self_of_head {p : Nat → Bool} {l : List Nat}
    (h : ∀ a, l.head? = some a → p a = false) : l.dropWhile p = l := by
  cases l with
  | nil => rfl
  | cons a l =>
    rw [List.dropWhile_cons, if_neg]
    simp [h a rfl]

theorem stripEnds_eq_self {l : Str}
    (h1 : ∀ a, l.head? = some a → isSpaceChar a = false)
    (h2 : ∀ a, l.getLast? = some a → isSpaceChar a = false) :
    stripEnds l = l := by
  unfold stripEnds
  rw [dropWhile_eq_self_of_head h1, dropWhile_eq_self_of_head
    (by intro a ha; rw [List.head?_reverse] at ha; exact h2 a ha),
    List.reverse_reverse]

/-! ### Idempotence of the normalizer -/

/-- Characters of a normalized string are stable under every stage of the
normalization pipeline. -/
theorem normalize_chars_stable {s : Str} {d : Nat}
    (hd : d ∈ TextNormalizer.normalize s) :
    nfkdChar d = [d] ∧ combiningChar d = false ∧ foldChar d = [d] := by
  unfold TextNormalizer.normalize at hd
  rcases mem_charJoin.mp hd with ⟨c, hc, hdc⟩
  have hcmem := mem_stripEnds hc
  rw [List.mem_filter] at hcmem
  rcases hcmem with ⟨hcj, hcomb⟩
  rcases mem_charJoin.mp hcj with ⟨e, _, hce⟩
  have hcirr := nfkdChar_closure hce
  have hcomb' : combiningChar c = false := by simpa using hcomb
  have := foldChar_closure hcirr hcomb' hdc
  exact ⟨this.1, this.2.1, this.2.2.1⟩

theorem head?_charJoin_foldChar {u : Str} {d : Nat}
    (hd : (charJoin foldChar u).head? = some d) :
    ∃ c, u.head? = some c ∧ d ∈ foldChar c := by
  cases u with
  | nil => simp [charJoin] at hd
  | cons c cs =>
    refine ⟨c, rfl, ?_⟩
    rw [charJoin, List.head?_append] at hd
    cases hfc : (foldChar c).head? with
    | none =>
      exact absurd (List.head?_eq_none_iff.mp hfc) (foldChar_ne_nil c)
    | some b =>
      rw [hfc] at hd
      simp at hd
      subst hd
      exact List.mem_of_mem_head? (by simp [hfc])

/-- The output of `normalize` has no surrounding whitespace. -/
theorem normalize_head_nonspace {s : Str} {d : Nat}
    (hd : (TextNormalizer.normalize s).head? = some d) :
    isSpaceChar d = false := by
  unfold TextNormalizer.normalize at hd
  rcases head?_charJoin_foldChar hd with ⟨c, hc, hdc⟩
  have hcu := List.mem_of_mem_head? hc
  have hcsp := head?_stripEnds hc
  have hcmem := mem_stripEnds hcu
  rw [List.mem_filter] at hcmem
  rcases hcmem with ⟨hcj, hcomb⟩
  rcases mem_charJoin.mp hcj with ⟨e, _, hce⟩
  have := foldChar_closure (nfkdChar_closure hce) (by simpa using hcomb) hdc
  rw [this.2.2.2, hcsp]

theorem normalize_getLast_nonspace {s : Str} {d : Nat}
    (hd : (TextNormalizer.normalize s).getLast? = some d) :
    isSpaceChar d = false := by
  rw [← List.head?_reverse] at hd
  unfold TextNormalizer.normalize at hd
  rw [reverse_charJoin] at hd
  cases hu : (stripEnds ((charJoin nfkdChar s).filter
      (fun c => !combiningChar c))).reverse with
  | nil => rw [hu] at hd; simp [charJoin] at hd
  | cons c cs =>
    rw [hu, charJoin, List.head?_append] at hd
    have hcu : c ∈ stripEnds ((charJoin nfkdChar s).filter
        (fun c => !combiningChar c)) := by
      rw [← List.mem_reverse, hu]; simp
    have hcsp : isSpaceChar c = false := by
      apply getLast?_stripEnds (l := (charJoin nfkdChar s).filter
        (fun c => !combiningChar c))
      rw [← List.head?_reverse, hu]
      rfl
    have hcmem := mem_stripEnds hcu
    rw [List.mem_filter] at hcmem
    rcases hcmem with ⟨hcj, hcomb⟩
    rcases mem_charJoin.mp hcj with ⟨e, _, hce⟩
    cases hfc : (foldChar c).reverse.head? with
    | none =>
      rw [hfc] at hd
      exfalso
      apply foldChar_ne_nil c
      have := List.head?_eq_none_iff.mp hfc
      simpa using this
    | some b =>
      rw [hfc] at hd
      simp only [Option.or_some, Option.some.injEq] at hd
      subst hd
      have hbmem : b ∈ foldChar c := by
        have : b ∈ (foldChar c).reverse := List.mem_of_mem_head? (Option.mem_def.mpr hfc)
        simpa using this
      have := foldChar_closure (nfkdChar_closure hce) (by simpa using hcomb) hbmem
      rw [this.2.2.2, hcsp]

/-- C9.  The text normalizer is idempotent:
`normalize(normalize(s)) == normalize(s)` for every string `s`.
(`TextNormalizer.normalize`, normalizer.py lines 9-15.) -/
theorem normalize_idempotent (s : Str) :
    TextNormalizer.normalize (TextNormalizer.normalize s) =
      TextNormalizer.normalize s := by
  have hstable := fun d (hd : d ∈ TextNormalizer.normalize s) =>
    normalize_chars_stable hd
  conv_lhs => rw [TextNormalizer.normalize]
  rw [charJoin_eq_self (fun c hc => (hstable c hc).1)]
  rw [List.filter_eq_self.mpr (fun c hc => by simp [(hstable c hc).2.1])]
  rw [stripEnds_eq_self
    (fun a ha => normalize_head_nonspace ha)
    (fun a ha => normalize_getLast_nonspace ha)]
  exact charJoin_eq_self (fun c hc => (hstable c hc).2.2)

/-! ## Track ranking (ranker.py)

`TrackRanker.rank` sorts the candidate tracks with Python's
`sorted(tracks, key=sort_key, reverse=True)`, where
`sort_key(track) = (exact_match, similarity)`.  Python's `sorted` is a stable
sort; with `reverse=True` it orders descending while ties keep their original
relative order.  This is exactly the stable insertion sort by the relation
"my key is at least as large" (`keyGE`). -/

/-- `DeezerTrack` (deezer_search/track.py). -/
structure DeezerTrack where
  id : Int
  title : Str
  artist : Str
  album : Str
  link : Str
  preview : Option Str
deriving DecidableEq

/-- The sort key computed by `sort_key` inside `TrackRanker.rank`
(ranker.py lines 19-23): the pair (exact-match flag, similarity), where the
flag is `int(normalized_title == normalized_query)` and the similarity is
`SequenceMatcher(None, normalized_query, normalized_title).ratio()`.
The `difflib` ratio is an opaque numeric function of the two normalized
strings; it is kept as an explicit parameter `sim`, since no claim depends on
its values. -/
def TrackRanker.sortKey (sim : Str → Str → ℚ) (normalizedQuery : Str)
    (t : DeezerTrack) : Nat × ℚ :=
  ((if TextNormalizer.normalize t.title = normalizedQuery then 1 else 0),
    sim normalizedQuery (TextNormalizer.normalize t.title))

/-- Descending comparison of sort keys: `keyGE p q` holds when the track with
key `p` ranks at least as high as the one with key `q` under Python's
lexicographic tuple comparison. -/
def keyGE (p q : Nat × ℚ) : Prop :=
  q.1 < p.1 ∨ (q.1 = p.1 ∧ q.2 ≤ p.2)

instance : DecidableRel keyGE := fun p q => by
  unfold keyGE; infer_instance

theorem keyGE_refl (p : Nat × ℚ) : keyGE p p := Or.inr ⟨rfl, le_refl _⟩

theorem keyGE_total (p q : Nat × ℚ) : keyGE p q ∨ keyGE q p := by
  unfold keyGE
  rcases Nat.lt_trichotomy p.1 q.1 with h | h | h
  · exact Or.inr (Or.inl h)
  · rcases le_total p.2 q.2 with h2 | h2
    · exact Or.inr (Or.inr ⟨h, h2⟩)
    · exact Or.inl (Or.inr ⟨h.symm, h2⟩)
  · exact Or.inl (Or.inl h)

theorem keyGE_trans {p q r : Nat × ℚ} (h1 : keyGE p q) (h2 : keyGE q r) :
    keyGE p r := by
  unfold keyGE at *
  rcases h1 with h1 | ⟨h1, h1'⟩ <;> rcases h2 with h2 | ⟨h2, h2'⟩
  · exact Or.inl (h2.trans h1)
  · exact Or.inl (h2 ▸ h1)
  · exact Or.inl (h1 ▸ h2)
  · exact Or.inr ⟨h2.trans h1, h2'.trans h1'⟩

/-- `TrackRanker.rank` (ranker.py lines 16-26): normalize the query once,
then stable-sort the tracks descending by `sort_key`. -/
def TrackRanker.rank (sim : Str → Str → ℚ) (query : Str)
    (tracks : List DeezerTrack) : List DeezerTrack :=
  List.insertionSort
    (fun a b =>
      keyGE (TrackRanker.sortKey sim (TextNormalizer.normalize query) a)
        (TrackRanker.sortKey sim (TextNormalizer.normalize query) b))
    tracks

/-- C1.  `rank(query, tracks)` returns the input tracks (a permutation of
them) ordered descending by the pair (exact-match flag, similarity score);
the sort is stable for ties; and every exact title match is placed before
every non-exact match, regardless of the similarity values.
(`TrackRanker.rank`, ranker.py lines 16-26.) -/
theorem rank_orders_by_exact_match_then_similarity
    (sim : Str → Str → ℚ) (query : Str) (tracks : List DeezerTrack) :
    (TrackRanker.rank sim query tracks).Perm tracks ∧
    (TrackRanker.rank sim query tracks).Pairwise
      (fun a b =>
        keyGE (TrackRanker.sortKey sim (TextNormalizer.normalize query) a)
          (TrackRanker.sortKey sim (TextNormalizer.normalize query) b)) ∧
    (∀ a b, List.Sublist [a, b] tracks →
      TrackRanker.sortKey sim (TextNormalizer.normalize query) a =
        TrackRanker.sortKey sim (TextNormalizer.normalize query) b →
      List.Sublist [a, b] (TrackRanker.rank sim query tracks)) ∧
    (∀ i j (hi : i < (TrackRanker.rank sim query tracks).length)
        (hj : j < (TrackRanker.rank sim query tracks).length), i < j →
      TextNormalizer.normalize ((TrackRanker.rank sim query tracks)[j]).title =
        TextNormalizer.normalize query →
      TextNormalizer.normalize ((TrackRanker.rank sim query tracks)[i]).title =
        TextNormalizer.normalize query) := by
  haveI : IsTotal DeezerTrack
      (fun a b =>
        keyGE (TrackRanker.sortKey sim (TextNormalizer.normalize query) a)
          (TrackRanker.sortKey sim (TextNormalizer.normalize query) b)) :=
    ⟨fun a b => keyGE_total _ _⟩
  haveI : IsTrans DeezerTrack
      (fun a b =>
        keyGE (TrackRanker.sortKey sim (TextNormalizer.normalize query) a)
          (TrackRanker.sortKey sim (TextNormalizer.normalize query) b)) :=
    ⟨fun _ _ _ h1 h2 => keyGE_trans h1 h2⟩
  have hpair : (TrackRanker.rank sim query tracks).Pairwise
      (fun a b =>
        keyGE (TrackRanker.sortKey sim (TextNormalizer.normalize query) a)
          (TrackRanker.sortKey sim (TextNormalizer.normalize query) b)) :=
    List.sorted_insertionSort _ tracks
  refine ⟨List.perm_insertionSort _ tracks, hpair, ?_, ?_⟩
  · intro a b hsub heq
    exact List.pair_sublist_insertionSort (heq ▸ keyGE_refl _) hsub
  · intro i j hi hj hij hjex
    have hrel := List.pairwise_iff_getElem.mp hpair i j hi hj hij
    rcases hrel with hlt | ⟨heq, _⟩
    · exfalso
      rw [TrackRanker.sortKey, TrackRanker.sortKey, hjex, if_pos rfl] at hlt
      by_cases hiex : TextNormalizer.normalize
          ((TrackRanker.rank sim query tracks)[i]).title =
          TextNormalizer.normalize query
      · rw [if_pos hiex] at hlt; omega
      · rw [if_neg hiex] at hlt; omega
    · by_contra hiex
      rw [TrackRanker.sortKey, TrackRanker.sortKey, hjex, if_pos rfl,
        if_neg hiex] at heq
      omega

/-! ## Text search model (search_model.py, cache.py)

`DeezerSongSearchModel.predict` coordinates the Deezer client, the ranker and
the result cache.  The Deezer client is modelled as a pure function
`client : query → limit → strict → tracks`; `predict` additionally returns
the updated cache and the log of client search calls it issued, so that
call-count properties can be stated. -/

/-- One `DeezerClient.search_tracks` invocation, recorded with its
arguments. -/
structure SearchCall where
  query : Str
  limit : Int
  strict : Bool
deriving DecidableEq

/-- `ResultCache` (cache.py lines 8-18): an in-memory map from
(normalized query, sanitized limit) keys to tuples of tracks.  Modelled as an
association list where `set` prepends (so lookups see the newest binding,
matching dict overwrite semantics). -/
abbrev ResultCache := List ((Str × Int) × List DeezerTrack)

/-- `ResultCache.get`. -/
def cacheGet (cache : ResultCache) (key : Str × Int) :
    Option (List DeezerTrack) :=
  match cache with
  | [] => none
  | (k, v) :: rest => if k = key then some v else cacheGet rest key

/-- `ResultCache.set`. -/
def cacheSet (key : Str × Int) (value : List DeezerTrack)
    (cache : ResultCache) : ResultCache :=
  (key, value) :: cache

theorem cacheGet_cacheSet_same (key : Str × Int) (value : List DeezerTrack)
    (cache : ResultCache) : cacheGet (cacheSet key value cache) key = some value := by
  simp [cacheGet, cacheSet]

/-- `DeezerSongSearchModel.predict` (search_model.py lines 30-53).

* raises `ValueError` (modelled as `Except.error`) on an empty/blank name;
* normalizes the query and checks the cache; on a hit it returns the cached
  tracks with no client call;
* otherwise fetches with `fetch_limit = max(2 * sanitized_limit, 5)` using a
  strict search first, falling back to one relaxed search only when the
  strict search returned no tracks (`_fetch_tracks` strips the song name
  before querying);
* ranks, trims to the sanitized limit, stores the trimmed list in the cache.

Returns (result, updated cache, log of client search calls). -/
def DeezerSongSearchModel.predict (client : Str → Int → Bool → List DeezerTrack)
    (sim : Str → Str → ℚ) (cache : ResultCache) (songName : Str)
    (limit : Int) :
    Except Unit (List DeezerTrack × ResultCache × List SearchCall) :=
  if songName = [] ∨ stripEnds songName = [] then .error ()
  else
    let sanitizedLimit : Int := max 1 limit
    let cacheKey := (TextNormalizer.normalize songName, sanitizedLimit)
    match cacheGet cache cacheKey with
    | some cachedTracks => .ok (cachedTracks, cache, [])
    | none =>
      let fetchLimit : Int := max (2 * sanitizedLimit) 5
      match client (stripEnds songName) fetchLimit true with
      | [] =>
        let tracks := client (stripEnds songName) fetchLimit false
        let trimmed :=
          (TrackRanker.rank sim songName tracks).take sanitizedLimit.toNat
        .ok (trimmed, cacheSet cacheKey trimmed cache,
          [⟨stripEnds songName, fetchLimit, true⟩,
           ⟨stripEnds songName, fetchLimit, false⟩])
      | t :: ts =>
        let trimmed :=
          (TrackRanker.rank sim songName (t :: ts)).take sanitizedLimit.toNat
        .ok (trimmed, cacheSet cacheKey trimmed cache,
          [⟨stripEnds songName, fetchLimit, true⟩])

/-- C2.  On a fresh (cache-miss) non-blank query, `predict` issues a strict
catalog search first, and issues exactly one relaxed search if and only if
the strict search returned an empty list; when the strict search returned a
non-empty list, no relaxed search occurs.
(`DeezerSongSearchModel.predict`, search_model.py lines 44-53.) -/
theorem predict_relaxed_fallback_iff_strict_empty
    (client : Str → Int → Bool → List DeezerTrack) (sim : Str → Str → ℚ)
    (cache : ResultCache) (songName : Str) (limit : Int)
    (hblank : ¬(songName = [] ∨ stripEnds songName = []))
    (hmiss : cacheGet cache
      (TextNormalizer.normalize songName, max 1 limit) = none) :
    ∃ result cache' calls,
      DeezerSongSearchModel.predict client sim cache songName limit =
        .ok (result, cache', calls) ∧
      calls.head? =
        some ⟨stripEnds songName, max (2 * max 1 limit) 5, true⟩ ∧
      (calls.filter (fun sc => sc.strict)).length = 1 ∧
      (calls.filter (fun sc => !sc.strict)).length =
        (if client (stripEnds songName) (max (2 * max 1 limit) 5) true = []
         then 1 else 0) := by
  unfold DeezerSongSearchModel.predict
  rw [if_neg hblank]
  simp only [hmiss]
  cases hstrict : client (stripEnds songName) (max (2 * max 1 limit) 5) true with
  | nil =>
    refine ⟨_, _, _, rfl, rfl, ?_, ?_⟩ <;> simp [List.filter]
  | cons t ts =>
    refine ⟨_, _, _, rfl, rfl, ?_, ?_⟩ <;>
      simp [List.filter, hstrict]

/-- C8.  Two successive `predict` calls with the same arguments return
identical results, and the second call performs no catalog-client search at
all: it is answered from the result cache, which is left unchanged.
(`DeezerSongSearchModel.predict`, search_model.py lines 30-53,
`ResultCache`, cache.py lines 8-18.) -/
theorem predict_second_call_cached
    (client : Str → Int → Bool → List DeezerTrack) (sim : Str → Str → ℚ)
    (cache : ResultCache) (songName : Str) (limit : Int)
    (result : List DeezerTrack) (cache' : ResultCache)
    (calls : List SearchCall)
    (hfirst : DeezerSongSearchModel.predict client sim cache songName limit =
      .ok (result, cache', calls)) :
    DeezerSongSearchModel.predict client sim cache' songName limit =
      .ok (result, cache', []) := by
  unfold DeezerSongSearchModel.predict at hfirst ⊢
  by_cases hblank : songName = [] ∨ stripEnds songName = []
  · rw [if_pos hblank] at hfirst; cases hfirst
  rw [if_neg hblank] at hfirst ⊢
  cases hhit : cacheGet cache
      (TextNormalizer.normalize songName, max 1 limit) with
  | some cachedTracks =>
    simp only [hhit, Except.ok.injEq, Prod.mk.injEq] at hfirst
    obtain ⟨h1, h2, -⟩ := hfirst
    subst h1; subst h2
    simp only [hhit]
  | none =>
    cases hstrict : client (stripEnds songName) (max (2 * max 1 limit) 5) true with
    | nil =>
      simp only [hhit, hstrict, Except.ok.injEq, Prod.mk.injEq] at hfirst
      obtain ⟨h1, h2, -⟩ := hfirst
      subst h1; subst h2
      simp only [cacheGet_cacheSet_same]
    | cons t ts =>
      simp only [hhit, hstrict, Except.ok.injEq, Prod.mk.injEq] at hfirst
      obtain ⟨h1, h2, -⟩ := hfirst
      subst h1; subst h2
      simp only [cacheGet_cacheSet_same]

/-! ## Audio embedding services

Floats are modelled as rationals.  `np.linalg.norm(v)` is the square root of
the sum of squares; it is zero exactly when the sum of squares (`normSq`) is
zero, so the `norm == 0` test of the code is modelled by `normSq = 0`. -/

/-- Decoded audio samples / embedding vectors. -/
abbrev Emb := List ℚ

/-- Sum of squares of a vector; zero exactly when `np.linalg.norm` is zero. -/
def normSq (v : Emb) : ℚ := (v.map (fun x => x * x)).sum

/-- `HuggingFaceAudioEmbedder.embed` (huggingface_audio_service.py lines
40-66).  `audio` is the waveform produced by `librosa.load` (mono, resampled,
truncated to `max_duration`); `model` is the opaque CLAP feature extractor
(`processor` + `get_audio_features` + flatten).  The code raises `ValueError`
when the decoded waveform is empty (`audio.size == 0`) and when the produced
embedding has zero norm; otherwise it returns `embedding / norm`.  The final
division by the (positive) norm is omitted here because the norm is an
irrational square root; it rescales the returned vector and never affects
whether an error is raised. -/
def HuggingFaceAudioEmbedder.embed (audio : Emb) (model : Emb → Emb) :
    Except String Emb :=
  if audio.length = 0 then .error "produced an empty waveform"
  else
    let embedding := model audio
    if normSq embedding = 0 then .error "Generated embedding has zero norm"
    else .ok embedding

/-- `HuggingFaceAudioEmbedder.similarity` (huggingface_audio_service.py lines
68-70): `np.dot` of the two embeddings. -/
def HuggingFaceAudioEmbedder.similarity : Emb → Emb → ℚ
  | a :: as, b :: bs => a * b + HuggingFaceAudioEmbedder.similarity as bs
  | _, _ => 0

/-- C6.  `embed` fails (raises, modelled as `Except.error`) whenever the
audio decoding yielded zero samples or the model produced an embedding of
zero norm; it never returns a vector in those cases.
(`HuggingFaceAudioEmbedder.embed`, huggingface_audio_service.py lines
40-66.) -/
theorem embed_rejects_empty_audio_and_zero_norm (audio : Emb)
    (model : Emb → Emb)
    (h : audio = [] ∨ normSq (model audio) = 0) :
    ∀ v, HuggingFaceAudioEmbedder.embed audio model ≠ .ok v := by
  intro v hv
  unfold HuggingFaceAudioEmbedder.embed at hv
  by_cases hlen : audio.length = 0
  · rw [if_pos hlen] at hv; cases hv
  · rw [if_neg hlen] at hv
    rcases h with h | h
    · exact hlen (by rw [h]; rfl)
    · rw [if_pos h] at hv; cases hv

/-- Witness for C6 at a concrete input: silent (zero-norm) model output on a
non-empty waveform is rejected. -/
theorem embed_rejects_empty_audio_and_zero_norm_witness :
    HuggingFaceAudioEmbedder.embed [1, 1] (fun _ => [0, 0]) ≠ .ok [0, 0] :=
  embed_rejects_empty_audio_and_zero_norm [1, 1] (fun _ => [0, 0])
    (Or.inr (by simp [normSq])) [0, 0]

/-! ## Embedding service audio preprocessing (embedding_service.py) -/

/-- `self.sample_rate = 48000` (embedding_service.py line 57). -/
def EmbeddingService.sampleRate : Nat := 48000

/-- `self.target_length = 10` seconds (embedding_service.py line 58). -/
def EmbeddingService.targetLength : Nat := 10

/-- `target_samples = self.sample_rate * self.target_length`
(embedding_service.py line 77). -/
def EmbeddingService.targetSamples : Nat :=
  EmbeddingService.sampleRate * EmbeddingService.targetLength

/-- `EmbeddingService.load_audio` (embedding_service.py lines 61-88), after
`librosa.load` decoding: pad with zeros up to `target_samples` when the
signal is shorter, otherwise keep the first `target_samples` samples
(`audio[:target_samples]`). -/
def EmbeddingService.load_audio (audio : Emb) : Emb :=
  if audio.length < EmbeddingService.targetSamples then
    audio ++ List.replicate (EmbeddingService.targetSamples - audio.length) 0
  else
    audio.take EmbeddingService.targetSamples

/-- The crop described by the spec sentence: a window of `n` samples centered
at the signal's midpoint.  Modelled from the spec's words, for comparison
with `EmbeddingService.load_audio`. -/
def centerWindowSpec (audio : Emb) (n : Nat) : Emb :=
  (audio.drop ((audio.length - n) / 2)).take n

theorem head?_take {l : Emb} {n : Nat} (h : n ≠ 0) :
    (l.take n).head? = l.head? := by
  cases n with
  | zero => exact absurd rfl h
  | succ m => cases l <;> simp [List.take]

/-- C7 counterexample.  For the concrete signal `1 :: 2 :: [0,...,0]`
(two samples longer than the target window), `load_audio` keeps the first
`target_samples` samples — it does not return the window centered at the
signal's midpoint, which would start at the second sample. -/
theorem load_audio_is_not_center_cropped :
    EmbeddingService.load_audio
        (1 :: 2 :: List.replicate EmbeddingService.targetSamples 0) ≠
      centerWindowSpec
        (1 :: 2 :: List.replicate EmbeddingService.targetSamples 0)
        EmbeddingService.targetSamples := by
  intro h
  have h0 := congrArg List.head? h
  have hlen : (1 :: 2 :: List.replicate EmbeddingService.targetSamples (0:ℚ)).length =
      EmbeddingService.targetSamples + 2 := by
    rw [List.length_cons, List.length_cons, List.length_replicate]
  rw [EmbeddingService.load_audio, if_neg (by rw [hlen]; omega)] at h0
  rw [centerWindowSpec, hlen] at h0
  have h2 : EmbeddingService.targetSamples + 2 - EmbeddingService.targetSamples = 2 := by
    omega
  rw [h2] at h0
  have h3 : (2 : Nat) / 2 = 1 := rfl
  rw [h3] at h0
  have h4 : (1 :: 2 :: List.replicate EmbeddingService.targetSamples (0:ℚ)).drop 1 =
      2 :: List.replicate EmbeddingService.targetSamples 0 := rfl
  rw [h4] at h0
  have hT : EmbeddingService.targetSamples ≠ 0 := by decide
  rw [head?_take hT, head?_take hT] at h0
  simp at h0

/-- C7 (amended).  `load_audio` always returns exactly `target_samples`
samples; sample `i` of the output is sample `i` of the input when the input
is long enough, and silence (`0`) otherwise.  In particular a shorter signal
is padded with silence up to the fixed target length, and a longer signal is
cropped to its initial `target_samples` window (a prefix, not a centered
window).  (`EmbeddingService.load_audio`, embedding_service.py lines
61-88.) -/
theorem load_audio_pads_or_crops_initial_window (audio : Emb) :
    (EmbeddingService.load_audio audio).length = EmbeddingService.targetSamples ∧
    ∀ i, i < EmbeddingService.targetSamples →
      (EmbeddingService.load_audio audio)[i]? =
        (if i < audio.length then audio[i]? else some 0) := by
  unfold EmbeddingService.load_audio
  by_cases hlen : audio.length < EmbeddingService.targetSamples
  · rw [if_pos hlen]
    constructor
    · simp; omega
    · intro i hi
      by_cases hia : i < audio.length
      · rw [if_pos hia, List.getElem?_append_left hia]
      · rw [if_neg hia, List.getElem?_append_right (by omega)]
        rw [List.getElem?_replicate_of_lt (by omega)]
  · rw [if_neg hlen]
    constructor
    · simp; omega
    · intro i hi
      rw [if_pos (by omega), List.getElem?_take_of_lt hi]

/-- Witness for C7's amended theorem at a concrete short signal: a
three-sample input is padded with silence, so sample 0 is kept and sample 3
is silence. -/
theorem load_audio_pads_or_crops_initial_window_witness :
    (EmbeddingService.load_audio [5, 6, 7]).length =
        EmbeddingService.targetSamples ∧
      (EmbeddingService.load_audio [5, 6, 7])[0]? = some 5 ∧
      (EmbeddingService.load_audio [5, 6, 7])[3]? = some 0 := by
  obtain ⟨h1, h2⟩ := load_audio_pads_or_crops_initial_window [5, 6, 7]
  refine ⟨h1, ?_, ?_⟩
  · rw [h2 0 (by decide)]; rfl
  · rw [h2 3 (by decide)]; rfl

/-! ## Style recommendation service (style_recommendation_service.py)

Candidate tracks travel through this service as Python dictionaries; they are
modelled as structures whose optional fields mirror `dict.get` results, with
`Option Cand` standing for a possibly-falsy (empty) dictionary in fetched
lists.  Network and embedding failures are modelled as `Except.error`.
`deezer.download_preview` followed by `embedder.embed` on the downloaded file
is modelled as a single `fetchEmbed : url → Except String Emb` capability
(either step may raise; the temporary path is an implementation detail). -/

/-- A candidate-track dictionary as used by `_collect_candidates` and
`_score_candidates`: only the `id` and `preview_url` keys are consulted. -/
structure Cand where
  id : Option Str
  preview : Option Str
deriving DecidableEq

/-- `candidate.copy()` enriched with its `similarity` score
(style_recommendation_service.py lines 114-116). -/
structure ScoredCand where
  cand : Cand
  similarity : ℚ
deriving DecidableEq

/-- Python falsiness of an optional string value (`None` or `""`). -/
def falsyStr : Option Str → Bool
  | none => true
  | some s => s.isEmpty

/-- Seed-track metadata as consumed by `recommend_by_track_id`
(`deezer.get_track_metadata`): only the `preview_url` key is consulted. -/
structure TrackMetadata where
  preview : Option Str
deriving DecidableEq

/-- `StyleRecommendationService._score_candidates`
(style_recommendation_service.py lines 93-121): for each candidate, skip it
when its id is falsy, equals `exclude_id`, or its preview URL is falsy;
otherwise download the preview and embed it, skipping the candidate when
either step raises; on success append the candidate enriched with
`similarity(query_embedding, embedding)`. -/
def StyleRecommendationService.scoreCandidates
    (fetchEmbed : Str → Except String Emb) (queryEmbedding : Emb)
    (excludeId : Str) : List Cand → List ScoredCand
  | [] => []
  | c :: rest =>
    if falsyStr c.id ∨ c.id = some excludeId ∨ falsyStr c.preview then
      StyleRecommendationService.scoreCandidates fetchEmbed queryEmbedding
        excludeId rest
    else
      match c.preview with
      | none =>
        StyleRecommendationService.scoreCandidates fetchEmbed queryEmbedding
          excludeId rest
      | some url =>
        match fetchEmbed url with
        | .error _ =>
          StyleRecommendationService.scoreCandidates fetchEmbed queryEmbedding
            excludeId rest
        | .ok embedding =>
          ⟨c, HuggingFaceAudioEmbedder.similarity queryEmbedding embedding⟩ ::
            StyleRecommendationService.scoreCandidates fetchEmbed
              queryEmbedding excludeId rest

/-- The related-tracks loop of `_collect_candidates`
(style_recommendation_service.py lines 64-70): skip falsy dicts and ids
already seen, record the id as seen, append the candidate, and return early
once `limit` candidates are accumulated.  Returns the seen-id set, the
accumulated candidates and whether the loop returned early. -/
def StyleRecommendationService.relatedLoop (limit : Nat) :
    List (Option Cand) → List (Option Str) → List Cand →
      List (Option Str) × List Cand × Bool
  | [], seen, acc => (seen, acc, false)
  | none :: rest, seen, acc =>
    StyleRecommendationService.relatedLoop limit rest seen acc
  | some c :: rest, seen, acc =>
    if c.id ∈ seen then
      StyleRecommendationService.relatedLoop limit rest seen acc
    else
      if limit ≤ (acc ++ [c]).length then (c.id :: seen, acc ++ [c], true)
      else StyleRecommendationService.relatedLoop limit rest (c.id :: seen)
        (acc ++ [c])

/-- The chart-tracks loop of `_collect_candidates`
(style_recommendation_service.py lines 78-89): like the related loop, but a
candidate is also skipped when its preview URL is falsy, and the loop breaks
at the limit. -/
def StyleRecommendationService.chartLoop (limit : Nat) :
    List (Option Cand) → List (Option Str) → List Cand → List Cand
  | [], _, acc => acc
  | none :: rest, seen, acc =>
    StyleRecommendationService.chartLoop limit rest seen acc
  | some c :: rest, seen, acc =>
    if c.id ∈ seen ∨ falsyStr c.preview then
      StyleRecommendationService.chartLoop limit rest seen acc
    else
      if limit ≤ (acc ++ [c]).length then acc ++ [c]
      else StyleRecommendationService.chartLoop limit rest (c.id :: seen)
        (acc ++ [c])

/-- `StyleRecommendationService._collect_candidates`
(style_recommendation_service.py lines 55-91): fetch related tracks (errors
degrade to an empty list), run the related loop seeded with
`seen_ids = {track_id}`; when fewer than `limit` candidates were collected,
fetch chart tracks with `limit * 2` (errors degrade to an empty list) and run
the chart loop. -/
def StyleRecommendationService.collectCandidates
    (related : Except String (List (Option Cand)))
    (getChartTracks : Nat → Except String (List (Option Cand)))
    (trackId : Str) (limit : Nat) : List Cand :=
  let rel := match related with | .ok l => l | .error _ => []
  match StyleRecommendationService.relatedLoop limit rel [some trackId] [] with
  | (_, acc, true) => acc
  | (seen, acc, false) =>
    if acc.length < limit then
      let charts :=
        match getChartTracks (limit * 2) with | .ok l => l | .error _ => []
      StyleRecommendationService.chartLoop limit charts seen acc
    else acc

/-- Descending comparison of scored candidates:
`sorted(scored, key=lambda item: item["similarity"], reverse=True)` is the
stable sort by this relation. -/
def simGE (a b : ScoredCand) : Prop := b.similarity ≤ a.similarity

instance : DecidableRel simGE := fun a b => by
  unfold simGE; infer_instance

/-- The scoring/ranking tail of `recommend_by_track_id`
(style_recommendation_service.py lines 45-53), applied to an arbitrary
candidate pool: score the candidates against the query embedding, sort
descending by similarity (stable) and keep the first `top_k`. -/
def StyleRecommendationService.recommendCore
    (fetchEmbed : Str → Except String Emb) (queryEmbedding : Emb)
    (pool : List Cand) (trackId : Str) (topK : Nat) : List ScoredCand :=
  (List.insertionSort simGE
    (StyleRecommendationService.scoreCandidates fetchEmbed queryEmbedding
      trackId pool)).take topK

/-- `StyleRecommendationService.recommend_by_track_id`
(style_recommendation_service.py lines 28-53): fetch the seed metadata and
raise `ValueError` when it is missing or has no preview URL; download the
seed preview and embed it (failures propagate); collect candidates, score
them (per-candidate failures absorbed), sort descending by similarity and
return the first `top_k`. -/
def StyleRecommendationService.recommend_by_track_id
    (getTrackMetadata : Str → Option TrackMetadata)
    (fetchEmbed : Str → Except String Emb)
    (related : Except String (List (Option Cand)))
    (getChartTracks : Nat → Except String (List (Option Cand)))
    (trackId : Str) (candidateLimit : Nat) (topK : Nat) :
    Except String (List ScoredCand) :=
  match getTrackMetadata trackId with
  | none => .error "Selected track has no preview available for analysis"
  | some metadata =>
    match metadata.preview with
    | none => .error "Selected track has no preview available for analysis"
    | some url =>
      if url = [] then
        .error "Selected track has no preview available for analysis"
      else
        match fetchEmbed url with
        | .error e => .error e
        | .ok queryEmbedding =>
          .ok (StyleRecommendationService.recommendCore fetchEmbed
            queryEmbedding
            (StyleRecommendationService.collectCandidates related
              getChartTracks trackId candidateLimit)
            trackId topK)

/-! ### Soundness lemmas for the scoring and collection loops -/

/-- Every scored candidate passed the guard (its id is neither falsy nor the
excluded id, its preview URL is present) and was scored from a successful
download-and-embed, with the similarity of its embedding against the query
embedding. -/
theorem scoreCandidates_sound (fetchEmbed : Str → Except String Emb)
    (qe : Emb) (excludeId : Str) :
    ∀ (pool : List Cand) (s : ScoredCand),
      s ∈ StyleRecommendationService.scoreCandidates fetchEmbed qe excludeId
        pool →
      s.cand.id ≠ some excludeId ∧
        ∃ url e, s.cand.preview = some url ∧ fetchEmbed url = .ok e ∧
          s.similarity = HuggingFaceAudioEmbedder.similarity qe e := by
  intro pool
  induction pool with
  | nil =>
    intro s hs
    simp [StyleRecommendationService.scoreCandidates] at hs
  | cons c rest ih =>
    intro s hs
    rw [StyleRecommendationService.scoreCandidates] at hs
    by_cases hguard : falsyStr c.id ∨ c.id = some excludeId ∨ falsyStr c.preview
    · rw [if_pos hguard] at hs
      exact ih s hs
    · rw [if_neg hguard] at hs
      have hid : c.id ≠ some excludeId := fun he => hguard (Or.inr (Or.inl he))
      cases hp : c.preview with
      | none =>
        simp only [hp] at hs
        exact ih s hs
      | some url =>
        simp only [hp] at hs
        cases hfe : fetchEmbed url with
        | error e =>
          simp only [hfe] at hs
          exact ih s hs
        | ok e =>
          simp only [hfe] at hs
          rcases List.mem_cons.mp hs with h | h
          · subst h
            exact ⟨hid, url, e, hp, hfe, rfl⟩
          · exact ih s h

/-- When `recommend_by_track_id` returns normally, its result is the
sorted-and-trimmed scoring of the collected candidate pool against some query
embedding. -/
theorem recommend_ok_shape {getTrackMetadata : Str → Option TrackMetadata}
    {fetchEmbed : Str → Except String Emb}
    {related : Except String (List (Option Cand))}
    {getChartTracks : Nat → Except String (List (Option Cand))}
    {trackId : Str} {candidateLimit topK : Nat} {l : List ScoredCand}
    (h : StyleRecommendationService.recommend_by_track_id getTrackMetadata
      fetchEmbed related getChartTracks trackId candidateLimit topK = .ok l) :
    ∃ qe, l = StyleRecommendationService.recommendCore fetchEmbed qe
      (StyleRecommendationService.collectCandidates related getChartTracks
        trackId candidateLimit) trackId topK := by
  unfold StyleRecommendationService.recommend_by_track_id at h
  cases hmd : getTrackMetadata trackId with
  | none =>
    simp only [hmd] at h
    exact Except.noConfusion h
  | some md =>
    simp only [hmd] at h
    cases hp : md.preview with
    | none =>
      simp only [hp] at h
      exact Except.noConfusion h
    | some url =>
      simp only [hp] at h
      by_cases hu : url = []
      · rw [if_pos hu] at h; cases h
      · rw [if_neg hu] at h
        cases hfe : fetchEmbed url with
        | error e =>
          simp only [hfe] at h
          exact Except.noConfusion h
        | ok qe =>
          simp only [hfe, Except.ok.injEq] at h
          exact ⟨qe, h.symm⟩

/-- Every candidate produced by the chart loop either was already
accumulated, or is drawn from the fetched chart list, has a non-falsy
preview URL, and its id was not in the seen-id set. -/
theorem chartLoop_sound (limit : Nat) :
    ∀ (rest : List (Option Cand)) (seen : List (Option Str))
      (acc : List Cand) (c : Cand),
      c ∈ StyleRecommendationService.chartLoop limit rest seen acc →
      c ∈ acc ∨
        ((some c) ∈ rest ∧ falsyStr c.preview = false ∧ ¬(c.id ∈ seen)) := by
  intro rest
  induction rest with
  | nil =>
    intro seen acc c hc
    rw [StyleRecommendationService.chartLoop] at hc
    exact Or.inl hc
  | cons o rest ih =>
    intro seen acc c hc
    cases o with
    | none =>
      rw [StyleRecommendationService.chartLoop] at hc
      rcases ih seen acc c hc with h | ⟨h1, h2, h3⟩
      · exact Or.inl h
      · exact Or.inr ⟨List.mem_cons_of_mem _ h1, h2, h3⟩
    | some d =>
      rw [StyleRecommendationService.chartLoop] at hc
      by_cases hg : d.id ∈ seen ∨ falsyStr d.preview
      · rw [if_pos hg] at hc
        rcases ih seen acc c hc with h | ⟨h1, h2, h3⟩
        · exact Or.inl h
        · exact Or.inr ⟨List.mem_cons_of_mem _ h1, h2, h3⟩
      · rw [if_neg hg] at hc
        have hg1 : ¬(d.id ∈ seen) := fun he => hg (Or.inl he)
        have hg2 : falsyStr d.preview = false := by
          cases hfd : falsyStr d.preview
          · rfl
          · exact absurd (Or.inr hfd) hg
        by_cases hl : limit ≤ (acc ++ [d]).length
        · rw [if_pos hl] at hc
          rcases List.mem_append.mp hc with h | h
          · exact Or.inl h
          · rw [List.mem_singleton] at h
            subst h
            exact Or.inr ⟨List.mem_cons_self _ _, hg2, hg1⟩
        · rw [if_neg hl] at hc
          rcases ih (d.id :: seen) (acc ++ [d]) c hc with h | ⟨h1, h2, h3⟩
          · rcases List.mem_append.mp h with h | h
            · exact Or.inl h
            · rw [List.mem_singleton] at h
              subst h
              exact Or.inr ⟨List.mem_cons_self _ _, hg2, hg1⟩
          · exact Or.inr ⟨List.mem_cons_of_mem _ h1, h2,
              fun he => h3 (List.mem_cons_of_mem _ he)⟩

/-! ### C3: top-K ordering -/

/-- Concrete scenario for C3: a seed with preview URL `[113]`, three related
candidates whose preview URLs embed to vectors giving similarity scores
9/10, 3/10 and 7/10 against the seed embedding. -/
def exSeed : Str := [115]

def exC1 : Cand := ⟨some [97], some [1]⟩

def exC2 : Cand := ⟨some [98], some [2]⟩

def exC3 : Cand := ⟨some [99], some [3]⟩

def exGetMetadata : Str → Option TrackMetadata := fun _ => some ⟨some [113]⟩

def exFetchEmbed : Str → Except String Emb := fun url =>
  if url = [113] then .ok [1]
  else if url = [1] then .ok [9/10]
  else if url = [2] then .ok [3/10]
  else if url = [3] then .ok [7/10]
  else .error "NetworkError"

def exRelated : Except String (List (Option Cand)) :=
  .ok [some exC1, some exC2, some exC3]

def exGetCharts : Nat → Except String (List (Option Cand)) := fun _ => .ok []

/-- C3.  Whatever `recommend_by_track_id` returns is sorted descending by the
candidates' similarity scores and contains at most `top_k` entries; for
candidates scoring 9/10, 3/10 and 7/10 with `top_k = 2`, the output is the
9/10-scored track followed by the 7/10-scored track.
(`StyleRecommendationService.recommend_by_track_id`,
style_recommendation_service.py lines 28-53.) -/
theorem recommend_output_sorted_descending_topk :
    (∀ getTrackMetadata fetchEmbed related getChartTracks trackId
        candidateLimit topK l,
      StyleRecommendationService.recommend_by_track_id getTrackMetadata
        fetchEmbed related getChartTracks trackId candidateLimit topK =
        .ok l →
      l.Pairwise (fun a b => b.similarity ≤ a.similarity) ∧
        l.length ≤ topK) ∧
    StyleRecommendationService.recommend_by_track_id exGetMetadata
      exFetchEmbed exRelated exGetCharts exSeed 25 2 =
      .ok [⟨exC1, 9/10⟩, ⟨exC3, 7/10⟩] := by
  constructor
  · intro getMd fe rel gc tid cl tk l hok
    obtain ⟨qe, hl⟩ := recommend_ok_shape hok
    subst hl
    constructor
    · haveI : IsTotal ScoredCand simGE := ⟨fun a b => le_total _ _⟩
      haveI : IsTrans ScoredCand simGE :=
        ⟨fun _ _ _ h1 h2 => le_trans h2 h1⟩
      exact List.Pairwise.sublist (List.take_sublist _ _)
        (List.sorted_insertionSort simGE _)
    · exact List.length_take_le _ _
  · norm_num [StyleRecommendationService.recommend_by_track_id,
      StyleRecommendationService.recommendCore,
      StyleRecommendationService.collectCandidates,
      StyleRecommendationService.relatedLoop,
      StyleRecommendationService.chartLoop,
      StyleRecommendationService.scoreCandidates,
      HuggingFaceAudioEmbedder.similarity, simGE, falsyStr,
      List.insertionSort, List.orderedInsert,
      exGetMetadata, exFetchEmbed, exRelated, exGetCharts, exSeed,
      exC1, exC2, exC3]

/-- Witness for C3's universally quantified part at the concrete scenario:
the returned list is sorted descending and within the `top_k` bound. -/
theorem recommend_output_sorted_descending_topk_witness :
    ([⟨exC1, 9/10⟩, ⟨exC3, 7/10⟩] : List ScoredCand).Pairwise
        (fun a b => b.similarity ≤ a.similarity) ∧
      ([⟨exC1, 9/10⟩, ⟨exC3, 7/10⟩] : List ScoredCand).length ≤ 2 :=
  recommend_output_sorted_descending_topk.1 exGetMetadata exFetchEmbed
    exRelated exGetCharts exSeed 25 2 _
    recommend_output_sorted_descending_topk.2

/-! ### C4: the seed never appears in the output -/

/-- C4.  The scoring stage skips every candidate whose id equals the excluded
seed id — even if the candidate pool contains the seed — so the output of
`recommend_by_track_id` never contains the seed id.
(`StyleRecommendationService._score_candidates`, lines 93-121, and
`recommend_by_track_id`, lines 28-53.) -/
theorem recommend_never_returns_seed :
    (∀ fetchEmbed qe excludeId pool s,
      s ∈ StyleRecommendationService.scoreCandidates fetchEmbed qe excludeId
        pool →
      s.cand.id ≠ some excludeId) ∧
    (∀ getTrackMetadata fetchEmbed related getChartTracks trackId
        candidateLimit topK l s,
      StyleRecommendationService.recommend_by_track_id getTrackMetadata
        fetchEmbed related getChartTracks trackId candidateLimit topK =
        .ok l →
      s ∈ l → s.cand.id ≠ some trackId) := by
  constructor
  · intro fe qe ex pool s hs
    exact (scoreCandidates_sound fe qe ex pool s hs).1
  · intro getMd fe rel gc tid cl tk l s hok hs
    obtain ⟨qe, hl⟩ := recommend_ok_shape hok
    subst hl
    have hs' : s ∈ StyleRecommendationService.scoreCandidates fe qe tid
        (StyleRecommendationService.collectCandidates rel gc tid cl) :=
      (List.mem_insertionSort simGE).mp (List.mem_of_mem_take hs)
    exact (scoreCandidates_sound fe qe tid _ s hs').1

/-- Witness for C4: applied to a pool that does contain the seed id, at the
concrete scored candidate the loop produces. -/
theorem recommend_never_returns_seed_witness :
    (⟨exC1, 9/10⟩ : ScoredCand).cand.id ≠ some exSeed :=
  recommend_never_returns_seed.1 exFetchEmbed [1] exSeed
    [⟨some exSeed, some [1]⟩, exC1] ⟨exC1, 9/10⟩
    (by norm_num [StyleRecommendationService.scoreCandidates,
      HuggingFaceAudioEmbedder.similarity, falsyStr, exFetchEmbed, exSeed,
      exC1])

/-! ### C5: partial candidate failures -/

/-- Concrete scenario for C5's witness and counterexample: the seed resolves
and embeds, but every candidate fails to score (the download/embed of its
preview raises a network error). -/
def cexSeed : Str := [115]

def cexCand : Cand := ⟨some [97], some [1]⟩

def cexGetMetadata : Str → Option TrackMetadata := fun _ => some ⟨some [113]⟩

def cexFetchEmbed : Str → Except String Emb := fun url =>
  if url = [113] then .ok [1] else .error "NetworkError"

def cexRelated : Except String (List (Option Cand)) := .ok [some cexCand]

def cexGetCharts : Nat → Except String (List (Option Cand)) := fun _ => .ok []

/-- C5 (amended).  Once the seed stage succeeds (metadata with a preview URL,
seed preview downloaded and embedded), per-candidate failures in the scoring
loop are absorbed: the operation returns normally, its output contains only
candidates whose preview was downloaded and embedded successfully, and when
zero candidates scored it returns the empty list normally (it does not raise
a terminal error).
(`StyleRecommendationService._score_candidates`, lines 93-121, and
`recommend_by_track_id`, lines 28-53.) -/
theorem recommend_absorbs_candidate_failures
    (getTrackMetadata : Str → Option TrackMetadata)
    (fetchEmbed : Str → Except String Emb)
    (related : Except String (List (Option Cand)))
    (getChartTracks : Nat → Except String (List (Option Cand)))
    (trackId : Str) (candidateLimit topK : Nat)
    (md : TrackMetadata) (url : Str) (qe : Emb)
    (hmd : getTrackMetadata trackId = some md)
    (hp : md.preview = some url) (hu : url ≠ [])
    (hfe : fetchEmbed url = .ok qe) :
    (∃ l, StyleRecommendationService.recommend_by_track_id getTrackMetadata
        fetchEmbed related getChartTracks trackId candidateLimit topK =
        .ok l ∧
      ∀ s ∈ l, ∃ u e, s.cand.preview = some u ∧ fetchEmbed u = .ok e ∧
        s.similarity = HuggingFaceAudioEmbedder.similarity qe e) ∧
    (StyleRecommendationService.scoreCandidates fetchEmbed qe trackId
        (StyleRecommendationService.collectCandidates related getChartTracks
          trackId candidateLimit) = [] →
      StyleRecommendationService.recommend_by_track_id getTrackMetadata
        fetchEmbed related getChartTracks trackId candidateLimit topK =
        .ok []) := by
  have hok : StyleRecommendationService.recommend_by_track_id getTrackMetadata
      fetchEmbed related getChartTracks trackId candidateLimit topK =
      .ok (StyleRecommendationService.recommendCore fetchEmbed qe
        (StyleRecommendationService.collectCandidates related getChartTracks
          trackId candidateLimit) trackId topK) := by
    unfold StyleRecommendationService.recommend_by_track_id
    simp only [hmd, hp, hfe]
    rw [if_neg hu]
  constructor
  · refine ⟨_, hok, ?_⟩
    intro s hs
    unfold StyleRecommendationService.recommendCore at hs
    have hs' := (List.mem_insertionSort simGE).mp (List.mem_of_mem_take hs)
    exact (scoreCandidates_sound fetchEmbed qe trackId _ s hs').2
  · intro hzero
    rw [hok]
    unfold StyleRecommendationService.recommendCore
    rw [hzero]
    simp

/-- Witness for C5's amended theorem at the concrete all-candidates-fail
scenario. -/
theorem recommend_absorbs_candidate_failures_witness :
    (∃ l, StyleRecommendationService.recommend_by_track_id cexGetMetadata
        cexFetchEmbed cexRelated cexGetCharts cexSeed 25 2 = .ok l ∧
      ∀ s ∈ l, ∃ u e, s.cand.preview = some u ∧ cexFetchEmbed u = .ok e ∧
        s.similarity = HuggingFaceAudioEmbedder.similarity [1] e) ∧
    (StyleRecommendationService.scoreCandidates cexFetchEmbed [1] cexSeed
        (StyleRecommendationService.collectCandidates cexRelated cexGetCharts
          cexSeed 25) = [] →
      StyleRecommendationService.recommend_by_track_id cexGetMetadata
        cexFetchEmbed cexRelated cexGetCharts cexSeed 25 2 = .ok []) :=
  recommend_absorbs_candidate_failures cexGetMetadata cexFetchEmbed cexRelated
    cexGetCharts cexSeed 25 2 ⟨some [113]⟩ [113] [1] rfl rfl (by decide) rfl

/-- C5 counterexample.  In a concrete run where the seed stage succeeds but
every candidate fails to score, `recommend_by_track_id` returns the empty
list normally — it does not fail with a terminal error as the claim
states. -/
theorem recommend_zero_scored_candidates_returns_ok_empty :
    StyleRecommendationService.recommend_by_track_id cexGetMetadata
      cexFetchEmbed cexRelated cexGetCharts cexSeed 25 2 = .ok [] := rfl

/-! ### C10: the repository client has no related-tracks operation -/

/-- Modelled from the source: `DeezerService` (deezer_service.py lines
14-366) defines no `get_related_tracks` method, so the call
`self.deezer.get_related_tracks(track_id, limit=limit)` in
`_collect_candidates` raises `AttributeError`; the surrounding
`except Exception` replaces the result by the empty list. -/
def deezerServiceRelated : Except String (List (Option Cand)) :=
  .error "AttributeError: DeezerService object has no attribute named get_related_tracks"

/-- C10.  With the repository's own catalog client (which has no
`get_related_tracks` operation), the related stage contributes zero
candidates, so every candidate in the collected pool is drawn from the
fetched chart tracks, has a non-falsy preview URL, and is not the seed.
(`StyleRecommendationService._collect_candidates`, lines 55-91, and
`DeezerService`, deezer_service.py lines 14-366.) -/
theorem collectCandidates_with_repo_client_draws_only_from_charts
    (getChartTracks : Nat → Except String (List (Option Cand)))
    (trackId : Str) (limit : Nat) (c : Cand)
    (hc : c ∈ StyleRecommendationService.collectCandidates
      deezerServiceRelated getChartTracks trackId limit) :
    (some c) ∈ (match getChartTracks (limit * 2) with
      | .ok l => l | .error _ => []) ∧
    falsyStr c.preview = false ∧ c.id ≠ some trackId := by
  unfold StyleRecommendationService.collectCandidates at hc
  simp only [deezerServiceRelated, StyleRecommendationService.relatedLoop,
    List.length_nil] at hc
  by_cases hl : 0 < limit
  · rw [if_pos hl] at hc
    rcases chartLoop_sound limit _ _ _ c hc with h | ⟨h1, h2, h3⟩
    · exact absurd h (List.not_mem_nil c)
    · exact ⟨h1, h2, fun he => h3 (by rw [he]; exact List.mem_cons_self _ _)⟩
  · rw [if_neg hl] at hc
    exact absurd hc (List.not_mem_nil c)

def c10Chart : Cand := ⟨some [100], some [7]⟩

def c10GetCharts : Nat → Except String (List (Option Cand)) :=
  fun _ => .ok [some c10Chart]

/-- Witness for C10 at a concrete chart feed: the collected candidate is a
chart track with a preview, distinct from the seed. -/
theorem collectCandidates_with_repo_client_draws_only_from_charts_witness :
    (some c10Chart) ∈ (match c10GetCharts (25 * 2) with
      | .ok l => l | .error _ => []) ∧
    falsyStr c10Chart.preview = false ∧ c10Chart.id ≠ some [115] :=
  collectCandidates_with_repo_client_draws_only_from_charts c10GetCharts
    [115] 25 c10Chart (by decide)

/-! ### Concrete witnesses for the ranker and the search model -/

def wTrackA : DeezerTrack := ⟨1, [97], [], [], [], none⟩

def wTrackB : DeezerTrack := ⟨2, [98], [], [], [], none⟩

def wClient : Str → Int → Bool → List DeezerTrack :=
  fun _ _ strict => if strict then [wTrackA] else []

/-- Witness for C1 at a concrete input: two tracks with equal sort keys keep
their input order (stability of the ranking sort). -/
theorem rank_orders_by_exact_match_then_similarity_witness :
    List.Sublist [wTrackA, wTrackB]
      (TrackRanker.rank (fun _ _ => 0) [113] [wTrackA, wTrackB]) :=
  (rank_orders_by_exact_match_then_similarity (fun _ _ => 0) [113]
    [wTrackA, wTrackB]).2.2.1 wTrackA wTrackB (List.Sublist.refl _) (by decide)

/-- Witness for C2 at a concrete input: a non-blank query on an empty cache
with a client whose strict search succeeds issues exactly one strict call and
no relaxed call. -/
theorem predict_relaxed_fallback_iff_strict_empty_witness :
    ∃ result cache' calls,
      DeezerSongSearchModel.predict wClient (fun _ _ => 0) [] [97] 3 =
        .ok (result, cache', calls) ∧
      calls.head? = some ⟨stripEnds [97], max (2 * max 1 3) 5, true⟩ ∧
      (calls.filter (fun sc => sc.strict)).length = 1 ∧
      (calls.filter (fun sc => !sc.strict)).length =
        (if wClient (stripEnds [97]) (max (2 * max 1 3) 5) true = []
         then 1 else 0) :=
  predict_relaxed_fallback_iff_strict_empty wClient (fun _ _ => 0) [] [97] 3
    (by decide) rfl

/-- Witness for C8 at a concrete input: after a first `predict` call, the
second call with the same arguments returns the same value from the cache
with no client calls. -/
theorem predict_second_call_cached_witness :
    DeezerSongSearchModel.predict wClient (fun _ _ => 0)
        (cacheSet (TextNormalizer.normalize [97], 3) [wTrackA] []) [97] 3 =
      .ok ([wTrackA],
        cacheSet (TextNormalizer.normalize [97], 3) [wTrackA] [], []) :=
  predict_second_call_cached wClient (fun _ _ => 0) [] [97] 3 [wTrackA]
    (cacheSet (TextNormalizer.normalize [97], 3) [wTrackA] [])
    [⟨stripEnds [97], max (2 * max 1 3) 5, true⟩] rfl

end MusicRec
